import Mathlib

/-!
Verification of the voice-bridge repository against its natural-language
specification.  Each Python function relevant to the checked claims is
shallowly embedded as an executable Lean definition; machine floats that are
only ever compared are modelled as rationals, byte strings as lists of
`UInt8`, and fallible or effectful code as explicit result structures.
-/

/-! ## Audio framing (src/utils.py, chunk_mulaw_20ms)

Python source:
  frame = 160
  return [mulaw_bytes[i : i + frame] for i in range(0, len(mulaw_bytes), frame)]
The slice `b[i : i + 160]` is `(b.drop i).take 160`; stepping `i` by 160 over
the whole string is the recursion below.
-/

def chunk_mulaw_20ms (b : List UInt8) : List (List UInt8) :=
  if b = [] then [] else b.take 160 :: chunk_mulaw_20ms (b.drop 160)
termination_by b.length
decreasing_by
  simp only [List.length_drop]
  have h1 : 0 < b.length := List.length_pos.mpr (by assumption)
  omega

theorem chunk_mulaw_20ms_nil : chunk_mulaw_20ms [] = [] := by
  rw [chunk_mulaw_20ms]
  simp

theorem chunk_mulaw_20ms_cons (b : List UInt8) (hb : b ≠ []) :
    chunk_mulaw_20ms b = b.take 160 :: chunk_mulaw_20ms (b.drop 160) := by
  rw [chunk_mulaw_20ms]
  simp [hb]

theorem chunk_flatten_aux :
    ∀ (n : ℕ) (b : List UInt8), b.length ≤ n → (chunk_mulaw_20ms b).flatten = b := by
  intro n
  induction n with
  | zero =>
    intro b hb
    have hb0 : b = [] := List.eq_nil_of_length_eq_zero (Nat.le_zero.mp hb)
    subst hb0
    simp [chunk_mulaw_20ms_nil]
  | succ n ih =>
    intro b hb
    by_cases hb0 : b = []
    · subst hb0
      simp [chunk_mulaw_20ms_nil]
    · rw [chunk_mulaw_20ms_cons b hb0]
      have hpos : 0 < b.length := List.length_pos.mpr hb0
      have hlen : (b.drop 160).length ≤ n := by
        simp only [List.length_drop]
        omega
      simp only [List.flatten_cons, ih _ hlen]
      exact List.take_append_drop 160 b

theorem chunk_lengths_aux :
    ∀ (n : ℕ) (b : List UInt8), b.length ≤ n →
      (chunk_mulaw_20ms b).map List.length =
        List.replicate (b.length / 160) 160 ++
          (if b.length % 160 = 0 then [] else [b.length % 160]) := by
  intro n
  induction n with
  | zero =>
    intro b hb
    have hb0 : b = [] := List.eq_nil_of_length_eq_zero (Nat.le_zero.mp hb)
    subst hb0
    simp [chunk_mulaw_20ms_nil]
  | succ n ih =>
    intro b hb
    by_cases hb0 : b = []
    · subst hb0
      simp [chunk_mulaw_20ms_nil]
    · rw [chunk_mulaw_20ms_cons b hb0]
      have hpos : 0 < b.length := List.length_pos.mpr hb0
      by_cases hsmall : b.length ≤ 160
      · have hdrop : b.drop 160 = [] := List.drop_eq_nil_of_le hsmall
        rw [hdrop, chunk_mulaw_20ms_nil]
        simp only [List.map_cons, List.map_nil, List.length_take]
        have hmin : min 160 b.length = b.length := by omega
        rw [hmin]
        by_cases h160 : b.length = 160
        · have hd : b.length / 160 = 1 := by omega
          have hm : b.length % 160 = 0 := by omega
          simp [hd, hm, h160]
        · have hd : b.length / 160 = 0 := by omega
          have hm : b.length % 160 = b.length := by omega
          have hm0 : ¬ b.length % 160 = 0 := by omega
          simp [hd, hm, hm0, hb0]
      · have hlen : (b.drop 160).length ≤ n := by
          simp only [List.length_drop]
          omega
        simp only [List.map_cons, List.length_take]
        rw [ih _ hlen]
        simp only [List.length_drop]
        have hmin : min 160 b.length = 160 := by omega
        have hmod : (b.length - 160) % 160 = b.length % 160 := by omega
        have hdiv : b.length / 160 = (b.length - 160) / 160 + 1 := by omega
        rw [hmin, hmod, hdiv, List.replicate_succ, List.cons_append]

/-- Claim C4: for every byte string of length L, `chunk_mulaw_20ms` returns
ceil(L/160) frames, the first L / 160 of which have length exactly 160,
followed by one final frame of length L % 160 when L % 160 is nonzero, and
concatenating the frames in order yields the original byte string. -/
theorem c4_chunk_20ms_framing (b : List UInt8) :
    (chunk_mulaw_20ms b).length = (b.length + 159) / 160 ∧
    (chunk_mulaw_20ms b).map List.length =
      List.replicate (b.length / 160) 160 ++
        (if b.length % 160 = 0 then [] else [b.length % 160]) ∧
    (chunk_mulaw_20ms b).flatten = b := by
  have hmap := chunk_lengths_aux b.length b le_rfl
  refine ⟨?_, hmap, chunk_flatten_aux b.length b le_rfl⟩
  have hcount := congrArg List.length hmap
  simp only [List.length_map, List.length_append, List.length_replicate] at hcount
  by_cases h0 : b.length % 160 = 0 <;> simp [h0] at hcount <;> omega

/-! ## Outbound sender (src/twilio_utils.py, send_to_twilio) and barge-in
(src/voice_agent.py, handle_user_interruption)

The sender loop is embedded one iteration at a time.  Wall-clock time
(`time.perf_counter`) is modelled by rationals; `interruptAt i` is the value
the shared interruption flag is observed to have at the flag check of frame
`i`; `procCost i` is the time spent between the send of frame `i` and the
next flag check.  `lastSend` embeds the Python variable `last_send`, which
the source initialises once before the frame loop and never reassigns.
-/

def twentyMs : ℚ := 1 / 50

def pollInterval : ℚ := 1 / 20

def audioMimeStart : String := "audio/"

def emptyName : String := ""

structure MediaPart where
  data : Option (List UInt8)
  mime : Option String
deriving Repr, DecidableEq

/-- Embeds the frame-emission `for` loop of send_to_twilio (lines 34-50):
  last_send = time.perf_counter()
  for frame in chunk_mulaw_20ms(mulaw):
      if user_interrupt.is_set(): break
      now = time.perf_counter(); delta = now - last_send
      if delta < 0.02: await asyncio.sleep(0.02 - delta)
      await ws.send_json(media frame)
Returns the (send time, frame) pairs in emission order.  `i` is the index of
the next frame and `t` the current clock. -/
def emitLoop (lastSend : ℚ) (interruptAt : ℕ → Bool) (procCost : ℕ → ℚ) :
    List (List UInt8) → ℕ → ℚ → List (ℚ × List UInt8)
  | [], _, _ => []
  | f :: fs, i, t =>
    if interruptAt i then []
    else
      let delta := t - lastSend
      let sendAt := if delta < twentyMs then t + (twentyMs - delta) else t
      (sendAt, f) :: emitLoop lastSend interruptAt procCost fs (i + 1) (sendAt + procCost i)

/-- Outcome of one iteration of the outer `while` loop of send_to_twilio. -/
inductive SenderStepOutcome
  | pollInterrupt (sleepSecs : ℚ)
  | blockedOnEmptyQueue
  | skippedPart
  | emittedFrames (sent : List (ℚ × List UInt8))
deriving Repr, DecidableEq

/-- Embeds one iteration of send_to_twilio (lines 17-50).  `conv` is the
24 kHz-PCM-to-mu-law conversion (numpy decimation plus audioop companding,
both outside the repository); the returned list is the queue after the
iteration. -/
def send_to_twilio_step (userInterrupt : Bool) (queue : List MediaPart)
    (conv : List UInt8 → List UInt8) (interruptAt : ℕ → Bool) (procCost : ℕ → ℚ)
    (t0 : ℚ) : SenderStepOutcome × List MediaPart :=
  if userInterrupt then (SenderStepOutcome.pollInterrupt pollInterval, queue)
  else
    match queue with
    | [] => (SenderStepOutcome.blockedOnEmptyQueue, [])
    | part :: rest =>
      match part.data with
      | none => (SenderStepOutcome.skippedPart, rest)
      | some bytes =>
        if bytes = [] then (SenderStepOutcome.skippedPart, rest)
        else if ¬ String.startsWith (part.mime.getD emptyName) audioMimeStart then
          (SenderStepOutcome.skippedPart, rest)
        else
          (SenderStepOutcome.emittedFrames
            (emitLoop t0 interruptAt procCost (chunk_mulaw_20ms (conv bytes)) 0 t0), rest)

inductive WsEvent
  | clearEvent (streamSid : String)
  | closeEvent (streamSid : String)
deriving Repr, DecidableEq

/-- Embeds the queue flush of handle_user_interruption:
  while not send_twililo_queue.empty(): send_twililo_queue.get_nowait() -/
def flushQueue : List MediaPart → List MediaPart
  | [] => []
  | _ :: rest => flushQueue rest

structure InterruptionResult where
  flagAfter : Bool
  events : List WsEvent
  queueAfter : List MediaPart
deriving Repr, DecidableEq

/-- Embeds handle_user_interruption (src/voice_agent.py lines 326-345): sets
the interruption flag, sends a clear event to the transport, and drains the
playback queue. -/
def handle_user_interruption (streamSid : String) (_flagBefore : Bool)
    (queue : List MediaPart) : InterruptionResult :=
  { flagAfter := true
    events := [WsEvent.clearEvent streamSid]
    queueAfter := flushQueue queue }

theorem flushQueue_eq_nil (q : List MediaPart) : flushQueue q = [] := by
  induction q with
  | nil => rfl
  | cons p rest ih => simpa [flushQueue] using ih

theorem emitLoop_take_aux (lastSend : ℚ) (interruptAt : ℕ → Bool) (procCost : ℕ → ℚ) :
    ∀ (fs : List (List UInt8)) (k i : ℕ) (t : ℚ),
      (∀ j, j < k → interruptAt (i + j) = false) → interruptAt (i + k) = true →
      (emitLoop lastSend interruptAt procCost fs i t).map Prod.snd = fs.take k := by
  intro fs
  induction fs with
  | nil => intro k i t _ _; simp [emitLoop]
  | cons f fs ih =>
    intro k i t hbelow hk
    match k with
    | 0 =>
      have h0 : interruptAt i = true := by simpa using hk
      simp [emitLoop, h0]
    | k + 1 =>
      have h0 : interruptAt i = false := by simpa using hbelow 0 (Nat.succ_pos k)
      have hbelow' : ∀ j, j < k → interruptAt (i + 1 + j) = false := by
        intro j hj
        have := hbelow (j + 1) (by omega)
        simpa [Nat.add_assoc, Nat.add_comm 1 j] using this
      have hk' : interruptAt (i + 1 + k) = true := by
        have := hk
        rw [show i + (k + 1) = i + 1 + k from by omega] at this
        exact this
      simp only [emitLoop, h0, Bool.false_eq_true, if_false, List.map_cons, List.take_succ_cons]
      rw [ih k (i + 1) _ hbelow' hk']

def sidExample : String := "MZ0"

def frames3 : List (List UInt8) := [[0], [1], [2]]

/-- Claim C5: whenever the interruption flag is set, one iteration of the
outbound sender sends no media frames and instead polls the flag after a
fixed 0.05 s sleep, leaving the queue untouched; the frame-emission loop of
an in-flight utterance stops before emitting the first frame at which the
flag is observed set (the frames sent are exactly those checked before the
flag was seen, in order); and immediately after the flush step of
handle_user_interruption the playback queue is empty. -/
theorem c5_barge_in_protocol :
    (∀ (queue : List MediaPart) (conv : List UInt8 → List UInt8)
        (interruptAt : ℕ → Bool) (procCost : ℕ → ℚ) (t0 : ℚ),
      send_to_twilio_step true queue conv interruptAt procCost t0 =
        (SenderStepOutcome.pollInterrupt pollInterval, queue)) ∧
    (∀ (lastSend : ℚ) (interruptAt : ℕ → Bool) (procCost : ℕ → ℚ)
        (fs : List (List UInt8)) (k : ℕ) (t : ℚ),
      (∀ j, j < k → interruptAt j = false) → interruptAt k = true →
      (emitLoop lastSend interruptAt procCost fs 0 t).map Prod.snd = fs.take k) ∧
    (∀ (sid : String) (flag : Bool) (queue : List MediaPart),
      handle_user_interruption sid flag queue =
        { flagAfter := true, events := [WsEvent.clearEvent sid], queueAfter := [] }) := by
  refine ⟨?_, ?_, ?_⟩
  · intro queue conv interruptAt procCost t0
    simp [send_to_twilio_step]
  · intro lastSend interruptAt procCost fs k t hbelow hk
    refine emitLoop_take_aux lastSend interruptAt procCost fs k 0 t ?_ ?_
    · intro j hj
      simpa using hbelow j hj
    · simpa using hk
  · intro sid flag queue
    simp [handle_user_interruption, flushQueue_eq_nil]

theorem c5_barge_in_protocol_witness :
    (send_to_twilio_step true [] id (fun _ => false) (fun _ => 0) 0 =
      (SenderStepOutcome.pollInterrupt pollInterval, [])) ∧
    ((emitLoop 0 (fun j => decide (j = 1)) (fun _ => 0) frames3 0 0).map Prod.snd =
      [[(0 : UInt8)]]) ∧
    (handle_user_interruption sidExample true [{ data := none, mime := none }] =
      { flagAfter := true, events := [WsEvent.clearEvent sidExample], queueAfter := [] }) := by
  refine ⟨c5_barge_in_protocol.1 [] id (fun _ => false) (fun _ => 0) 0, ?_,
    c5_barge_in_protocol.2.2 sidExample true [{ data := none, mime := none }]⟩
  have h := c5_barge_in_protocol.2.1 0 (fun j => decide (j = 1)) (fun _ => 0) frames3 1 0
    (by
      intro j hj
      have hj0 : j = 0 := by omega
      subst hj0
      rfl)
    (by rfl)
  simpa [frames3] using h

/-- Claim C6 (evaluation at the failing input): the pacing code fixes
`last_send` once before the frame loop and never updates it after a send, so
for an utterance of three frames with zero processing cost every frame is
sent at the same instant `twentyMs`: the wall-clock gap between consecutive
sends is 0, not the claimed ≥ 20 ms. -/
theorem c6_pacing_bug_eval :
    (emitLoop 0 (fun _ => false) (fun _ => 0) frames3 0 0).map Prod.fst =
      [twentyMs, twentyMs, twentyMs] ∧ (0 : ℚ) < twentyMs := by
  constructor
  · norm_num [emitLoop, frames3, twentyMs]
  · norm_num [twentyMs]

/-! ## Tool dispatcher (src/voice_agent.py, handle_tool_calls)

The dispatcher is embedded as a pure fold over the batch of function calls.
Handlers are asynchronous Python callables that may raise; they are modelled
as functions into `Except String R` (error = the exception message), and the
registry `TOOLS` as a partial map from tool names.  Argument dictionaries and
success payloads are opaque type parameters `A` and `R`.  Side effects on the
telephony leg and on the shared session are recorded as an ordered action
trace; `return []` on a terminal tool is the `ended` flag together with the
empty response list.
-/

def endCallName : String := "end_call"

def transferName : String := "transfer_to_human"

def getProfileName : String := "get_caller_profile"

def fooStr : String := "foo"

def boomStr : String := "boom"

def failMsgStr : String := "kaput"

def unknownToolMsg (n : String) : String := "Unknown tool: " ++ n

def toolFailedMsg (e : String) : String := "Tool call failed: " ++ e

structure FunctionCall (A : Type) where
  id : Option String
  name : Option String
  args : Option A
deriving DecidableEq

inductive ToolResult (R : Type)
  | ok (r : R)
  | error (msg : String)
deriving DecidableEq

structure FunctionResponse (R : Type) where
  id : Option String
  name : String
  response : ToolResult R
deriving DecidableEq

inductive DispatchAction
  | waitQueueDrain
  | twilioSayHold
  | twilioDialHuman
  | sleepTwoSeconds
  | setEndCallEvent
  | wsSendClose
  | wsClose
deriving Repr, DecidableEq

structure DispatchResult (R : Type) where
  responses : List (FunctionResponse R)
  actions : List DispatchAction
  ended : Bool
deriving DecidableEq

def ToolRegistry (A R : Type) := String → Option (Option A → Except String R)

/-- Python falsy test `if not fc.name: continue` — the call is named when the
name is neither missing nor the empty string. -/
def isNamed {A : Type} (fc : FunctionCall A) : Bool := fc.name.getD emptyName != emptyName

def isTerminalName (n : String) : Bool := (n == transferName) || (n == endCallName)

def namedNonTerminal {A : Type} (fc : FunctionCall A) : Bool :=
  isNamed fc && !(isTerminalName (fc.name.getD emptyName))

/-- Ordered side-effect trace of the terminal-tool branch (lines 361-385):
wait for the playback queue to drain, perform the Twilio call-control side
effect (transfer only), sleep two seconds, set the end-call event, send the
close event and close the transport. -/
def terminalActions (n : String) : List DispatchAction :=
  DispatchAction.waitQueueDrain ::
    ((if n = transferName then
        [DispatchAction.twilioSayHold, DispatchAction.twilioDialHuman]
      else []) ++
      [DispatchAction.sleepTwoSeconds, DispatchAction.setEndCallEvent,
        DispatchAction.wsSendClose, DispatchAction.wsClose])

/-- Response computed for one named non-terminal call (lines 386-414):
`get_caller_profile` answers with the in-memory profile snapshot; a
registered handler is invoked (with the supplied arguments, if any) and any
exception is converted to a structured error payload; an unknown name
produces the structured unknown-tool error. -/
def respFor {A R : Type} (tools : ToolRegistry A R) (profileSnapshot : R)
    (fc : FunctionCall A) : FunctionResponse R :=
  let n := fc.name.getD emptyName
  if n = getProfileName then
    { id := fc.id, name := n, response := ToolResult.ok profileSnapshot }
  else
    match tools n with
    | some handler =>
      match handler fc.args with
      | Except.ok r => { id := fc.id, name := n, response := ToolResult.ok r }
      | Except.error e =>
        { id := fc.id, name := n, response := ToolResult.error (toolFailedMsg e) }
    | none => { id := fc.id, name := n, response := ToolResult.error (unknownToolMsg n) }

/-- Embeds handle_tool_calls (src/voice_agent.py lines 348-415).  An unnamed
call is skipped; a terminal call performs the terminal action trace and
returns the empty response list, discarding the batch remainder; otherwise
the per-call response is accumulated in call order. -/
def handle_tool_calls {A R : Type} (tools : ToolRegistry A R) (profileSnapshot : R) :
    List (FunctionCall A) → DispatchResult R
  | [] => { responses := [], actions := [], ended := false }
  | fc :: rest =>
    let n := fc.name.getD emptyName
    if n = emptyName then handle_tool_calls tools profileSnapshot rest
    else if isTerminalName n then
      { responses := [], actions := terminalActions n, ended := true }
    else
      let r := respFor tools profileSnapshot fc
      let t := handle_tool_calls tools profileSnapshot rest
      if t.ended then { responses := [], actions := t.actions, ended := true }
      else { responses := r :: t.responses, actions := t.actions, ended := false }

theorem isTerminalName_ne_empty {n : String} (h : isTerminalName n = true) :
    ¬ n = emptyName := by
  simp only [isTerminalName, Bool.or_eq_true, beq_iff_eq] at h
  rcases h with h | h <;> subst h <;> decide

theorem handle_tool_calls_no_terminal {A R : Type} (tools : ToolRegistry A R) (p : R) :
    ∀ calls : List (FunctionCall A),
      (∀ fc ∈ calls, isTerminalName (fc.name.getD emptyName) = false) →
      handle_tool_calls tools p calls =
        { responses := (calls.filter isNamed).map (respFor tools p),
          actions := [], ended := false } := by
  intro calls hterm
  induction calls with
  | nil => rfl
  | cons fc rest ih =>
    have hfc : isTerminalName (fc.name.getD emptyName) = false :=
      hterm fc (List.mem_cons_self fc rest)
    have hrest : ∀ g ∈ rest, isTerminalName (g.name.getD emptyName) = false := by
      intro g hg
      exact hterm g (List.mem_cons_of_mem fc hg)
    by_cases hn : fc.name.getD emptyName = emptyName
    · have hnamed : isNamed fc = false := by
        simp [isNamed, hn]
      simp [handle_tool_calls, hn, List.filter_cons, hnamed, ih hrest]
    · have hnamed : isNamed fc = true := by
        simp [isNamed, hn]
      simp [handle_tool_calls, hn, hfc, List.filter_cons, hnamed, ih hrest]

theorem handle_tool_calls_terminal_aux {A R : Type} (tools : ToolRegistry A R) (p : R)
    (t : FunctionCall A) (post : List (FunctionCall A))
    (ht : isTerminalName (t.name.getD emptyName) = true) :
    ∀ pre : List (FunctionCall A),
      (∀ fc ∈ pre, isTerminalName (fc.name.getD emptyName) = false) →
      handle_tool_calls tools p (pre ++ t :: post) =
        { responses := [], actions := terminalActions (t.name.getD emptyName),
          ended := true } := by
  intro pre hpre
  induction pre with
  | nil =>
    have hne : ¬ t.name.getD emptyName = emptyName := isTerminalName_ne_empty ht
    simp [handle_tool_calls, hne, ht]
  | cons fc pre ih =>
    have hfc : isTerminalName (fc.name.getD emptyName) = false :=
      hpre fc (List.mem_cons_self fc pre)
    have hpre' : ∀ g ∈ pre, isTerminalName (g.name.getD emptyName) = false := by
      intro g hg
      exact hpre g (List.mem_cons_of_mem fc hg)
    by_cases hn : fc.name.getD emptyName = emptyName
    · simp [handle_tool_calls, hn, ih hpre']
    · simp [handle_tool_calls, hn, hfc, ih hpre']

/-- Claim C2: for every batch containing a terminal tool call (end_call or
transfer_to_human), the dispatcher first waits for the playback queue to
drain, performs the telephony side effect, signals session termination, and
returns the empty response list; the result equals that of the batch
truncated at the terminal call, so no later call in the batch is executed. -/
theorem c2_terminal_tool_dispatch {A R : Type} (tools : ToolRegistry A R) (p : R)
    (pre post : List (FunctionCall A)) (t : FunctionCall A)
    (hpre : ∀ fc ∈ pre, isTerminalName (fc.name.getD emptyName) = false)
    (ht : isTerminalName (t.name.getD emptyName) = true) :
    handle_tool_calls tools p (pre ++ t :: post) =
      { responses := [], actions := terminalActions (t.name.getD emptyName),
        ended := true } ∧
    handle_tool_calls tools p (pre ++ t :: post) =
      handle_tool_calls tools p (pre ++ [t]) ∧
    (terminalActions (t.name.getD emptyName)).head? =
      some DispatchAction.waitQueueDrain ∧
    DispatchAction.setEndCallEvent ∈ terminalActions (t.name.getD emptyName) := by
  have h1 := handle_tool_calls_terminal_aux tools p t post ht pre hpre
  have h2 := handle_tool_calls_terminal_aux tools p t [] ht pre hpre
  refine ⟨h1, by rw [h1, h2], rfl, ?_⟩
  simp [terminalActions]

theorem c2_terminal_tool_dispatch_witness :
    handle_tool_calls (A := Unit) (R := Unit) (fun _ => none) ()
        ([{ id := none, name := some fooStr, args := none }] ++
          { id := none, name := some endCallName, args := none } ::
            [{ id := none, name := some fooStr, args := none }]) =
      { responses := [], actions := terminalActions endCallName, ended := true } ∧
    handle_tool_calls (A := Unit) (R := Unit) (fun _ => none) ()
        ([{ id := none, name := some fooStr, args := none }] ++
          { id := none, name := some endCallName, args := none } ::
            [{ id := none, name := some fooStr, args := none }]) =
      handle_tool_calls (A := Unit) (R := Unit) (fun _ => none) ()
        ([{ id := none, name := some fooStr, args := none }] ++
          [{ id := none, name := some endCallName, args := none }]) ∧
    (terminalActions endCallName).head? = some DispatchAction.waitQueueDrain ∧
    DispatchAction.setEndCallEvent ∈ terminalActions endCallName := by
  have h := c2_terminal_tool_dispatch (A := Unit) (R := Unit) (fun _ => none) ()
    [{ id := none, name := some fooStr, args := none }]
    [{ id := none, name := some fooStr, args := none }]
    { id := none, name := some endCallName, args := none }
    (by
      intro fc hfc
      simp only [List.mem_singleton] at hfc
      subst hfc
      decide)
    (by decide)
  simpa using h

/-- The exact error text asserted by the claim for the tool name foo. -/
def c3ClaimedLowercaseMsg : String := "unknown tool: " ++ fooStr

/-- Claim C3, corrected capitalisation as stated false on the code: the
structured error produced for the unregistered tool name foo is
`Unknown tool: foo` (capital U), not the `unknown tool: foo` the claim
states exactly. -/
theorem c3_unknown_tool_msg_counterexample :
    (handle_tool_calls (A := Unit) (R := Unit) (fun _ => none) ()
        [{ id := none, name := some fooStr, args := none }]).responses =
      [{ id := none, name := fooStr,
         response := ToolResult.error (unknownToolMsg fooStr) }] ∧
    ¬ unknownToolMsg fooStr = c3ClaimedLowercaseMsg := by
  constructor
  · decide
  · decide

/-- Claim C3 (amended): for every function call whose name is non-empty, not
in the registry, and none of get_caller_profile / end_call /
transfer_to_human, dispatch does not raise and produces exactly one response
entry, whose payload is the structured error `Unknown tool: <name>`. -/
theorem c3_unknown_tool_amended {A R : Type} (tools : ToolRegistry A R) (p : R)
    (fcid : Option String) (name : String) (args : Option A)
    (hname : ¬ name = emptyName) (hreg : tools name = none)
    (hprof : ¬ name = getProfileName) (hterm : isTerminalName name = false) :
    respFor tools p { id := fcid, name := some name, args := args } =
      { id := fcid, name := name, response := ToolResult.error (unknownToolMsg name) } ∧
    (handle_tool_calls tools p [{ id := fcid, name := some name, args := args }]).responses =
      [{ id := fcid, name := name, response := ToolResult.error (unknownToolMsg name) }] := by
  have hresp : respFor tools p { id := fcid, name := some name, args := args } =
      { id := fcid, name := name,
        response := ToolResult.error (unknownToolMsg name) } := by
    simp [respFor, hprof, hreg]
  refine ⟨hresp, ?_⟩
  simp [handle_tool_calls, hname, hterm, hresp]

theorem c3_unknown_tool_amended_witness :
    respFor (A := Unit) (R := Unit) (fun _ => none) ()
        { id := none, name := some fooStr, args := none } =
      { id := none, name := fooStr,
        response := ToolResult.error (unknownToolMsg fooStr) } ∧
    (handle_tool_calls (A := Unit) (R := Unit) (fun _ => none) ()
        [{ id := none, name := some fooStr, args := none }]).responses =
      [{ id := none, name := fooStr,
         response := ToolResult.error (unknownToolMsg fooStr) }] :=
  c3_unknown_tool_amended (fun _ => none) () none fooStr none (by decide) rfl
    (by decide) (by decide)

/-- Claim C8: in a batch without terminal calls the model receives exactly
one response per named call, in call order; and for any registered
non-terminal tool whose handler raises, the exception is not propagated but
converted into the structured error payload `Tool call failed: <message>`
for that one call. -/
theorem c8_handler_error_contained {A R : Type} (tools : ToolRegistry A R) (p : R)
    (calls : List (FunctionCall A))
    (hterm : ∀ fc ∈ calls, isTerminalName (fc.name.getD emptyName) = false) :
    (handle_tool_calls tools p calls).responses =
      (calls.filter isNamed).map (respFor tools p) ∧
    (∀ (fcid : Option String) (name : String) (args : Option A)
        (h : Option A → Except String R) (e : String),
      tools name = some h → h args = Except.error e → ¬ name = getProfileName →
      respFor tools p { id := fcid, name := some name, args := args } =
        { id := fcid, name := name,
          response := ToolResult.error (toolFailedMsg e) }) := by
  constructor
  · rw [handle_tool_calls_no_terminal tools p calls hterm]
  · intro fcid name args h e hreg herr hprof
    simp [respFor, hprof, hreg, herr]

def c8Registry : ToolRegistry Unit Unit := fun n =>
  if n == boomStr then some (fun _ => Except.error failMsgStr) else none

theorem c8_handler_error_contained_witness :
    (handle_tool_calls c8Registry ()
        [{ id := none, name := some boomStr, args := none }]).responses =
      ([{ id := none, name := some boomStr, args := none }].filter isNamed).map
        (respFor c8Registry ()) ∧
    respFor c8Registry () { id := none, name := some boomStr, args := none } =
      { id := none, name := boomStr,
        response := ToolResult.error (toolFailedMsg failMsgStr) } := by
  have h := c8_handler_error_contained c8Registry ()
    [{ id := none, name := some boomStr, args := none }]
    (by
      intro fc hfc
      simp only [List.mem_singleton] at hfc
      subst hfc
      decide)
  exact ⟨h.1, h.2 none boomStr none (fun _ => Except.error failMsgStr) failMsgStr rfl
    rfl (by decide)⟩

/-- Claim C10, as stated false on the code: in a batch that also contains a
terminal tool call, the dispatcher returns the empty response list, so the
single named non-terminal call in the batch gets no response entry at all. -/
theorem c10_terminal_batch_counterexample :
    (handle_tool_calls (A := Unit) (R := Unit) (fun _ => none) ()
        [{ id := none, name := some fooStr, args := none },
          { id := none, name := some endCallName, args := none }]).responses = [] ∧
    ([{ id := none, name := some fooStr, args := none },
        { id := none, name := some endCallName, args := none }].filter
          (namedNonTerminal (A := Unit))).length = 1 := by
  constructor
  · decide
  · decide

/-- Claim C10 (amended): a function call whose name is missing or empty is
silently skipped, contributing no response entry; and for every batch that
contains no terminal tool call, the responses list contains exactly one
entry per named call, in call order.  (A batch containing a terminal tool
returns the empty response list instead, per the terminal rule.) -/
theorem c10_unnamed_skipped_amended {A R : Type} (tools : ToolRegistry A R) (p : R) :
    (∀ (fcid : Option String) (args : Option A) (rest : List (FunctionCall A)),
      handle_tool_calls tools p ({ id := fcid, name := none, args := args } :: rest) =
        handle_tool_calls tools p rest ∧
      handle_tool_calls tools p
          ({ id := fcid, name := some emptyName, args := args } :: rest) =
        handle_tool_calls tools p rest) ∧
    (∀ calls : List (FunctionCall A),
      (∀ fc ∈ calls, isTerminalName (fc.name.getD emptyName) = false) →
      (handle_tool_calls tools p calls).responses =
        (calls.filter isNamed).map (respFor tools p)) := by
  constructor
  · intro fcid args rest
    constructor
    · simp [handle_tool_calls]
    · simp [handle_tool_calls]
  · intro calls hterm
    rw [handle_tool_calls_no_terminal tools p calls hterm]

theorem c10_unnamed_skipped_amended_witness :
    (handle_tool_calls (A := Unit) (R := Unit) (fun _ => none) ()
        ({ id := none, name := none, args := none } ::
          [{ id := none, name := some fooStr, args := none }]) =
      handle_tool_calls (A := Unit) (R := Unit) (fun _ => none) ()
        [{ id := none, name := some fooStr, args := none }]) ∧
    ((handle_tool_calls (A := Unit) (R := Unit) (fun _ => none) ()
        [{ id := none, name := some fooStr, args := none }]).responses =
      ([{ id := none, name := some fooStr, args := none }].filter isNamed).map
        (respFor (A := Unit) (R := Unit) (fun _ => none) ())) := by
  have h := c10_unnamed_skipped_amended (A := Unit) (R := Unit) (fun _ => none) ()
  refine ⟨(h.1 none none [{ id := none, name := some fooStr, args := none }]).1, ?_⟩
  exact h.2 [{ id := none, name := some fooStr, args := none }]
    (by
      intro fc hfc
      simp only [List.mem_singleton] at hfc
      subst hfc
      decide)

/-! ## Car query tool (src/voice_agent.py, show_top_cars)

The car record and the argument record mirror the BAML-generated `CarInfo`
and the keyword parameters of show_top_cars; the generated `baml_client`
package and the static database `db.py` are not under src/, so the field
types are modelled from the spec and from the attribute accesses in the
function body (floats that are only compared become rationals, the
`CarType` / `SaleType` literal unions become strings).  Every Python filter
clause has the shape `not arg or predicate`, where `not arg` is the falsy
test: `None`, numeric zero, the empty string and the empty list all disable
the clause.  `list.sort(key=...)` is a stable ascending sort, embedded as
`List.mergeSort`; `relevant_cars[:top_n]` is a Python slice, embedded with
its negative-bound semantics. -/

structure CarInfo where
  make : String
  model : String
  year : ℤ
  price : ℚ
  type : String
  sale_type : String
  fuel_efficiency : ℤ
  horsepower : ℤ
  seats : ℤ
  mileage : ℤ
  features : List String
deriving Repr, DecidableEq

inductive OrderBy
  | year
  | price
  | mileage
deriving Repr, DecidableEq

def sortKey : OrderBy → CarInfo → ℚ
  | OrderBy.year, c => (c.year : ℚ)
  | OrderBy.price, c => c.price
  | OrderBy.mileage, c => (c.mileage : ℚ)

structure ShowTopCarsArgs where
  makes : Option (List String)
  models : Option (List String)
  year_gte : Option ℤ
  year_lte : Option ℤ
  budget_low : Option ℚ
  budget_high : Option ℚ
  car_type : Option String
  sale_type : Option String
  fuel_efficiency_gte : Option ℤ
  features : Option (List String)
  horsepower_gte : Option ℤ
  seats_gte : Option ℤ
  order_by : OrderBy
  top_n : ℤ

def falsyOrListStr (o : Option (List String)) (p : List String → Bool) : Bool :=
  match o with
  | none => true
  | some l => l.isEmpty || p l

def falsyOrZ (o : Option ℤ) (p : ℤ → Bool) : Bool :=
  match o with
  | none => true
  | some v => decide (v = 0) || p v

def falsyOrQ (o : Option ℚ) (p : ℚ → Bool) : Bool :=
  match o with
  | none => true
  | some v => decide (v = 0) || p v

def falsyOrStr (o : Option String) (p : String → Bool) : Bool :=
  match o with
  | none => true
  | some s => (s == emptyName) || p s

/-- The list-comprehension filter of show_top_cars (lines 94-109), clause by
clause in source order. -/
def passesFilters (a : ShowTopCarsArgs) (c : CarInfo) : Bool :=
  falsyOrListStr a.makes (fun ms => ms.contains c.make) &&
  falsyOrListStr a.models (fun ms => ms.contains c.model) &&
  falsyOrZ a.year_gte (fun v => decide (v ≤ c.year)) &&
  falsyOrZ a.year_lte (fun v => decide (c.year ≤ v)) &&
  falsyOrQ a.budget_low (fun v => decide (v ≤ c.price)) &&
  falsyOrQ a.budget_high (fun v => decide (c.price ≤ v)) &&
  falsyOrStr a.car_type (fun s => c.type == s) &&
  falsyOrStr a.sale_type (fun s => c.sale_type == s) &&
  falsyOrZ a.fuel_efficiency_gte (fun v => decide (v ≤ c.fuel_efficiency)) &&
  falsyOrZ a.horsepower_gte (fun v => decide (v ≤ c.horsepower)) &&
  falsyOrZ a.seats_gte (fun v => decide (v ≤ c.seats)) &&
  falsyOrListStr a.features (fun fs => fs.all (fun f => c.features.contains f))

/-- Python slice `l[:n]`: a nonnegative bound takes the first n elements, a
negative bound drops the last |n| elements. -/
def pySliceTake {α : Type} (n : ℤ) (l : List α) : List α :=
  if 0 ≤ n then l.take n.toNat else l.take (l.length - (-n).toNat)

def carLe (ob : OrderBy) (x y : CarInfo) : Bool :=
  decide (sortKey ob x ≤ sortKey ob y)

/-- Embeds show_top_cars (lines 78-112): filter, stable ascending sort by
the selected key, then `[:top_n]`. -/
def show_top_cars (db : List CarInfo) (a : ShowTopCarsArgs) : List CarInfo :=
  pySliceTake a.top_n ((db.filter (passesFilters a)).mergeSort (carLe a.order_by))

theorem pySliceTake_sublist {α : Type} (n : ℤ) (l : List α) :
    (pySliceTake n l).Sublist l := by
  unfold pySliceTake
  by_cases h : 0 ≤ n <;> simp [h, List.take_sublist]

theorem carLe_trans (ob : OrderBy) (x y z : CarInfo) (h1 : carLe ob x y = true)
    (h2 : carLe ob y z = true) : carLe ob x z = true := by
  simp only [carLe, decide_eq_true_eq] at h1 h2 ⊢
  exact le_trans h1 h2

theorem carLe_total (ob : OrderBy) (x y : CarInfo) :
    (carLe ob x y || carLe ob y x) = true := by
  simp only [carLe, Bool.or_eq_true, decide_eq_true_eq]
  exact le_total (sortKey ob x) (sortKey ob y)

/-- Argument record with every filter absent. -/
def allNoneArgs (ob : OrderBy) (tn : ℤ) : ShowTopCarsArgs :=
  { makes := none, models := none, year_gte := none, year_lte := none,
    budget_low := none, budget_high := none, car_type := none, sale_type := none,
    fuel_efficiency_gte := none, features := none, horsepower_gte := none,
    seats_gte := none, order_by := ob, top_n := tn }

/-- Claim C7 (amended to nonnegative top_n): for every car database and every
argument combination with top_n ≥ 0, the result of show_top_cars contains
only cars passing the conjunction of all supplied filter clauses, is sorted
ascending by the selected order_by key from the allow-list year/price/mileage,
has at most top_n entries, and an absent filter imposes no constraint (with
every filter absent, every car passes).  For negative top_n the Python slice
returns all but the last |top_n| sorted matches instead, which is the only
amendment to the claim. -/
theorem c7_show_top_cars_amended (db : List CarInfo) (a : ShowTopCarsArgs)
    (htop : 0 ≤ a.top_n) :
    (∀ c ∈ show_top_cars db a, passesFilters a c = true) ∧
    List.Sorted (fun x y => sortKey a.order_by x ≤ sortKey a.order_by y)
      (show_top_cars db a) ∧
    ((show_top_cars db a).length : ℤ) ≤ a.top_n ∧
    (∀ c : CarInfo, passesFilters (allNoneArgs a.order_by a.top_n) c = true) := by
  refine ⟨?_, ?_, ?_, ?_⟩
  · intro c hc
    have hmem : c ∈ (db.filter (passesFilters a)).mergeSort (carLe a.order_by) :=
      (pySliceTake_sublist a.top_n _).subset hc
    exact List.of_mem_filter (List.mem_mergeSort.mp hmem)
  · have hp := @List.sorted_mergeSort CarInfo (carLe a.order_by)
      (carLe_trans a.order_by) (carLe_total a.order_by) (db.filter (passesFilters a))
    have hq := List.Pairwise.sublist
      (pySliceTake_sublist a.top_n
        ((db.filter (passesFilters a)).mergeSort (carLe a.order_by))) hp
    refine hq.imp ?_
    intro x y hxy
    simpa [carLe] using hxy
  · have h1 : show_top_cars db a =
        ((db.filter (passesFilters a)).mergeSort (carLe a.order_by)).take a.top_n.toNat := by
      unfold show_top_cars pySliceTake
      rw [if_pos htop]
    rw [h1, List.length_take]
    push_cast
    omega
  · intro c
    rfl

def suvStr : String := "suv"

def carA : CarInfo :=
  { make := emptyName, model := emptyName, year := 2020, price := 50000,
    type := suvStr, sale_type := emptyName, fuel_efficiency := 0,
    horsepower := 0, seats := 0, mileage := 0, features := [] }

def carB : CarInfo :=
  { make := emptyName, model := emptyName, year := 2021, price := 60000,
    type := suvStr, sale_type := emptyName, fuel_efficiency := 0,
    horsepower := 0, seats := 0, mileage := 0, features := [] }

def c7ExampleDb : List CarInfo := [carA, carB]

def c7NegArgs : ShowTopCarsArgs :=
  { allNoneArgs OrderBy.price (-1) with car_type := some suvStr }

def c7PosArgs : ShowTopCarsArgs :=
  { allNoneArgs OrderBy.price 2 with
    car_type := some suvStr
    budget_high := some 80000 }

/-- Claim C7, as stated false on the code: with two matching SUVs and
top_n = -1, show_top_cars returns 1 entry (Python slice `[:-1]` drops only
the last element), and 1 entry is not at most top_n = -1. -/
theorem c7_negative_top_n_counterexample :
    (show_top_cars c7ExampleDb c7NegArgs).length = 1 ∧
    ¬ (((show_top_cars c7ExampleDb c7NegArgs).length : ℤ) ≤ c7NegArgs.top_n) := by
  have hfilter : c7ExampleDb.filter (passesFilters c7NegArgs) = c7ExampleDb := rfl
  have hL : ((c7ExampleDb.filter (passesFilters c7NegArgs)).mergeSort
      (carLe c7NegArgs.order_by)).length = 2 := by
    rw [List.length_mergeSort, hfilter]
    rfl
  have hlen : (show_top_cars c7ExampleDb c7NegArgs).length = 1 := by
    unfold show_top_cars pySliceTake
    rw [if_neg (by decide), List.length_take, hL]
    decide
  refine ⟨hlen, ?_⟩
  rw [hlen]
  decide

theorem c7_show_top_cars_amended_witness :
    (0 : ℤ) ≤ c7PosArgs.top_n ∧
    ((∀ c ∈ show_top_cars c7ExampleDb c7PosArgs, passesFilters c7PosArgs c = true) ∧
      List.Sorted (fun x y => sortKey c7PosArgs.order_by x ≤ sortKey c7PosArgs.order_by y)
        (show_top_cars c7ExampleDb c7PosArgs) ∧
      ((show_top_cars c7ExampleDb c7PosArgs).length : ℤ) ≤ c7PosArgs.top_n ∧
      (∀ c : CarInfo,
        passesFilters (allNoneArgs c7PosArgs.order_by c7PosArgs.top_n) c = true)) :=
  ⟨by decide, c7_show_top_cars_amended c7ExampleDb c7PosArgs (by decide)⟩

theorem falsyOrQ_none (p : ℚ → Bool) : falsyOrQ none p = true := rfl

theorem falsyOrZ_none (p : ℤ → Bool) : falsyOrZ none p = true := rfl

theorem falsyOrListStr_none (p : List String → Bool) : falsyOrListStr none p = true := rfl

theorem falsyOrQ_zero (p : ℚ → Bool) : falsyOrQ (some 0) p = true := by
  simp [falsyOrQ]

theorem falsyOrZ_zero (p : ℤ → Bool) : falsyOrZ (some 0) p = true := by
  simp [falsyOrZ]

theorem falsyOrListStr_nil (p : List String → Bool) :
    falsyOrListStr (some []) p = true := by
  simp [falsyOrListStr]

theorem show_top_cars_congr (db : List CarInfo) (a1 a2 : ShowTopCarsArgs)
    (h : ∀ c, passesFilters a1 c = passesFilters a2 c)
    (hob : a1.order_by = a2.order_by) (htn : a1.top_n = a2.top_n) :
    show_top_cars db a1 = show_top_cars db a2 := by
  unfold show_top_cars
  rw [List.filter_congr (fun c _ => h c), hob, htn]

/-- Claim C9: a filter argument that is supplied but falsy is treated
exactly like an absent filter: zero for each numeric bound and the empty
list for makes/models/features leave the result unchanged compared to
omitting that filter. -/
theorem c9_falsy_filters_ignored (db : List CarInfo) (a : ShowTopCarsArgs) :
    show_top_cars db { a with budget_high := some 0 } =
      show_top_cars db { a with budget_high := none } ∧
    show_top_cars db { a with budget_low := some 0 } =
      show_top_cars db { a with budget_low := none } ∧
    show_top_cars db { a with year_gte := some 0 } =
      show_top_cars db { a with year_gte := none } ∧
    show_top_cars db { a with fuel_efficiency_gte := some 0 } =
      show_top_cars db { a with fuel_efficiency_gte := none } ∧
    show_top_cars db { a with horsepower_gte := some 0 } =
      show_top_cars db { a with horsepower_gte := none } ∧
    show_top_cars db { a with seats_gte := some 0 } =
      show_top_cars db { a with seats_gte := none } ∧
    show_top_cars db { a with makes := some [] } =
      show_top_cars db { a with makes := none } ∧
    show_top_cars db { a with models := some [] } =
      show_top_cars db { a with models := none } ∧
    show_top_cars db { a with features := some [] } =
      show_top_cars db { a with features := none } := by
  refine ⟨?_, ?_, ?_, ?_, ?_, ?_, ?_, ?_, ?_⟩ <;>
    refine show_top_cars_congr db _ _ ?_ rfl rfl <;>
    intro c <;>
    simp [passesFilters, falsyOrQ_zero, falsyOrZ_zero, falsyOrListStr_nil,
      falsyOrQ_none, falsyOrZ_none, falsyOrListStr_none]

/-! ## Profile extraction tick (src/voice_agent.py, baml_processing_loop)

One tick of the extraction loop (lines 284-297) merges the freshly extracted
profile into the session and union-merges the extracted questions:
  existing_profile = session.renter_profile.profile.model_dump()
  existing_profile.update(profile.model_dump())
  session.renter_profile.profile = types.CallerProfile.model_validate(existing_profile)
  session.renter_profile.questions.extend(questions)
  session.renter_profile.questions = sorted(set(session.renter_profile.questions))
A pydantic `model_dump()` with no arguments serialises every field,
including fields whose value is None or an empty list, and `dict.update`
replaces every key present in its argument; since both dumps have exactly
the same keys, the merged dict carries the newly extracted value for every
field, so the merge is written out field by field below with the new value
on every field. -/

/-- Modelled from the spec: the BAML-generated `CallerProfile` record (the
generated `baml_client` package is not under src/).  Spec section 3 lists
its mutable preference fields as name, budget range, car-type preferences
and free-form notes; the callers in src/app.py construct it with
`car_preferences` and `additional_notes` list fields.  Optional scalar
fields are None when the extraction leaves them empty. -/
structure CallerProfile where
  name : Option String
  budget_low : Option ℚ
  budget_high : Option ℚ
  car_preferences : List String
  additional_notes : List String
deriving Repr, DecidableEq

/-- Embeds `existing_profile.update(profile.model_dump())` followed by
re-validation: every field of the result is the newly extracted field,
whether or not it is empty. -/
def mergeProfile (_existing newP : CallerProfile) : CallerProfile :=
  { name := newP.name
    budget_low := newP.budget_low
    budget_high := newP.budget_high
    car_preferences := newP.car_preferences
    additional_notes := newP.additional_notes }

/-- Embeds `sorted(set(xs))` on the questions list. -/
def sortedDedup (xs : List String) : List String :=
  xs.dedup.mergeSort (fun a b => decide (a ≤ b))

/-- One tick of baml_processing_loop after the two extraction calls return:
profile merge plus question union-merge. -/
def baml_tick_merge (profile : CallerProfile) (questions : List String)
    (extractedProfile : CallerProfile) (extractedQuestions : List String) :
    CallerProfile × List String :=
  (mergeProfile profile extractedProfile,
    sortedDedup (questions ++ extractedQuestions))

def aliceStr : String := "Alice"

def c1ExistingProfile : CallerProfile :=
  { name := some aliceStr, budget_low := none, budget_high := some 80000,
    car_preferences := [suvStr], additional_notes := [] }

/-- An extraction tick that left every field empty. -/
def c1EmptyExtraction : CallerProfile :=
  { name := none, budget_low := none, budget_high := none,
    car_preferences := [], additional_notes := [] }

/-- Claim C1 (evaluation at the failing input): the tick merge overwrites
the existing non-empty name (and budget and preference fields) with the
empty values of the new extraction, because dict.update receives a full
model_dump that includes empty fields; the claim says such fields retain
their existing non-empty values. -/
theorem c1_merge_clobbers_nonempty_field :
    c1ExistingProfile.name = some aliceStr ∧
    (baml_tick_merge c1ExistingProfile [] c1EmptyExtraction []).1.name = none ∧
    (baml_tick_merge c1ExistingProfile [] c1EmptyExtraction []).1.budget_high = none ∧
    (baml_tick_merge c1ExistingProfile [] c1EmptyExtraction []).1.car_preferences = [] ∧
    (baml_tick_merge c1ExistingProfile [] c1EmptyExtraction []).1 =
      c1EmptyExtraction := by
  refine ⟨rfl, rfl, rfl, rfl, rfl⟩
